import Mathlib

/-!
Shallow embedding of the DWI converter core (`DWIConvert/DWIConverter.h`):
the gradient-table transforms, the volume reshaping between the unwrapped
3D representation and the true 4D representation, and the two
serialization entry points (`ManualWriteNRRDFile`,
`WriteFSLFormattedFileSet`), together with theorems settling the
specification claims.

Modelling conventions:
* machine doubles are modelled as exact rationals;
* the C library square root is an uninterpreted parameter `sqrtD` passed
  to the transforms that use it;
* the gradient-table invariant of the source data model
  (`length(vectors) == length(bValues) == numVolumes`) is assumed as a
  hypothesis where the index loops of the source rely on it;
* C++ exceptions become `Except` values, and the `exit(1)` inside
  `has_valid_nifti_extension` becomes a dedicated error constructor;
* file names are lists of characters; completed file writes are recorded
  as explicit events so that statements about "error raised before any
  file is written" are expressible.
-/

namespace DWIConverter

/-- A gradient vector: three floating point components
(`vnl_vector_fixed<double,3>` in the source). -/
structure Vec3 where
  x : ℚ
  y : ℚ
  z : ℚ
deriving DecidableEq

/-- Componentwise scaling of a gradient vector, as in the loop
`vec[ind] = m_DiffusionVectors[k][ind] * scaleFactor`. -/
def smul (c : ℚ) (v : Vec3) : Vec3 :=
  ⟨c * v.x, c * v.y, c * v.z⟩

/-- Sum of squared components; the square of `vnl` `magnitude()`. -/
def sumSq (v : Vec3) : ℚ :=
  v.x * v.x + v.y * v.y + v.z * v.z

/-- Embedding of `DWIConverter::ComputeMaxBvalue`: fold starting from
`0.0`, replacing the accumulator whenever `bValues[k] > maxBvalue`. -/
def ComputeMaxBvalue (bValues : List ℚ) : ℚ :=
  bValues.foldl (fun maxBvalue b => if b > maxBvalue then b else maxBvalue) 0

/-- Embedding of `itk::Math::Round<double>`: round half integers up. -/
def itkRound (x : ℚ) : ℤ :=
  ⌊x + 1 / 2⌋

/-- Embedding of `DWIConverter::ConvertToSingleBValueScaledDiffusionVectors`.
The source loops over `k < m_DiffusionVectors.size()`, builds a scaled copy
of each vector with `scaleFactor = (maxBvalue > 0) ? sqrt(bValues[k]/maxBvalue) : 0`,
and assigns `m_BValues[k] = maxBvalue`; with the data-model invariant that
both lists have equal length this is the `zipWith`/`map` below. -/
def ConvertToSingleBValueScaledDiffusionVectors (sqrtD : ℚ → ℚ)
    (bValues : List ℚ) (vecs : List Vec3) : List ℚ × List Vec3 :=
  let maxBvalue := ComputeMaxBvalue bValues
  (bValues.map (fun _ => maxBvalue),
   List.zipWith
     (fun b v => smul (if maxBvalue > 0 then sqrtD (b / maxBvalue) else 0) v)
     bValues vecs)

/-- Embedding of `DWIConverter::ConvertToMutipleBValuesUnitScaledBVectors`
(the source spells it `Mutiple`). The source loops over the diffusion
vectors; per index it takes `mag = magnitude()`, snaps `mag` to `1.0` when
`|mag*mag - 1.0| < 0.01`, normalizes the vector (division by the true,
unsnapped magnitude), and sets `bValues[k] = Round(maxBvalue*mag*mag)`.
The old b-values are never read inside the loop. -/
def ConvertToMutipleBValuesUnitScaledBVectors (sqrtD : ℚ → ℚ)
    (bValues : List ℚ) (vecs : List Vec3) : List ℚ × List Vec3 :=
  let maxBvalue := ComputeMaxBvalue bValues
  (vecs.map (fun v =>
     let mag0 := sqrtD (sumSq v)
     let mag := if |mag0 * mag0 - 1| < 1 / 100 then 1 else mag0
     ((itkRound (maxBvalue * mag * mag) : ℤ) : ℚ)),
   vecs.map (fun v => smul (sqrtD (sumSq v))⁻¹ v))

/-! Character-level string primitives used by the serializers. -/

/-- Does `pat` occur at the start of `s`? Auxiliary for `strFind`. -/
def listStartsWith : List Char → List Char → Bool
  | _, [] => true
  | [], _ :: _ => false
  | a :: s, b :: p => (a == b) && listStartsWith s p

/-- Embedding of `std::string::find`: the first position at which `pat`
occurs as a contiguous substring of `s`, or `none` for
`std::string::npos`. -/
def strFind : List Char → List Char → Option ℕ
  | [], pat => if listStartsWith [] pat then some 0 else none
  | a :: s, pat =>
      if listStartsWith (a :: s) pat then some 0
      else (strFind s pat).map (· + 1)

/-- The `.nhdr` detached-header extension searched for by
`ManualWriteNRRDFile`. -/
def nhdrExt : List Char := ['.', 'n', 'h', 'd', 'r']

/-- The `.raw` sibling extension for the detached data file. -/
def rawExt : List Char := ['.', 'r', 'a', 'w']

/-- The `.nrrd` single-file extension named by the specification as the
recognized inline extension. -/
def nrrdExt : List Char := ['.', 'n', 'r', 'r', 'd']

/-- First entry of `extList` in `has_valid_nifti_extension`. -/
def niiGzExt : List Char := ['.', 'n', 'i', 'i', '.', 'g', 'z']

/-- Second entry of `extList` in `has_valid_nifti_extension`. -/
def niiExt : List Char := ['.', 'n', 'i', 'i']

/-- Extension appended to derive the default b-value sidecar name. -/
def bvalExt : List Char := ['.', 'b', 'v', 'a', 'l']

/-- Extension appended to derive the default b-vector sidecar name. -/
def bvecExt : List Char := ['.', 'b', 'v', 'e', 'c']

/-! The volume data model and the two reshaping operations. -/

/-- Embedding of the unwrapped 3D volume (`itk::Image<short,3>` plus its
geometry): per-axis sizes, a 3x3 direction-cosine matrix, spacing,
origin, and the sample buffer in raster order. -/
structure Volume3DUnwrappedType where
  size : Fin 3 → ℕ
  direction : Fin 3 → Fin 3 → ℚ
  spacing : Fin 3 → ℚ
  origin : Fin 3 → ℚ
  buffer : List ℤ

/-- Embedding of the 4D volume (`itk::Image<short,4>`). -/
structure Volume4DType where
  size : Fin 4 → ℕ
  direction : Fin 4 → Fin 4 → ℚ
  spacing : Fin 4 → ℚ
  origin : Fin 4 → ℚ
  buffer : List ℤ

/-- The fatal geometric error of the reshapers
(`itkGenericExceptionMacro` reporting slices, volumes, and the left-over
slice count). -/
inductive ReshapeError where
  | notDivisible (slices volumes leftover : ℕ)
deriving DecidableEq

/-- Embedding of `DWIConverter::ThreeDToFourDImage`. `nVolumes` is
`this->GetNVolume()`. The source computes `size4D[2] = size3D[2]/nVolumes`
by integer division, throws when `size4D[2]*nVolumes != size3D[2]`
(reporting the remainder), copies direction/spacing/origin of the first
three axes from the 3D volume after initializing the 4D geometry to
identity direction, unit spacing and zero origin, and finally `memcpy`s
`GetNumberOfPixels() * sizeof(short)` bytes of the new 4D raster from the
3D buffer. -/
def ThreeDToFourDImage (nVolumes : ℕ) (img : Volume3DUnwrappedType) :
    Except ReshapeError Volume4DType :=
  let size4_2 := img.size 2 / nVolumes
  if size4_2 * nVolumes ≠ img.size 2 then
    .error (.notDivisible (img.size 2) nVolumes (img.size 2 % nVolumes))
  else
    .ok
      { size := ![img.size 0, img.size 1, size4_2, nVolumes]
        direction := fun i j =>
          if h : i.val < 3 ∧ j.val < 3 then
            img.direction ⟨i.val, h.1⟩ ⟨j.val, h.2⟩
          else if i = j then 1 else 0
        spacing := fun i => if h : i.val < 3 then img.spacing ⟨i.val, h⟩ else 1
        origin := fun i => if h : i.val < 3 then img.origin ⟨i.val, h⟩ else 0
        buffer := img.buffer.take (img.size 0 * img.size 1 * size4_2 * nVolumes) }

/-- Embedding of `DWIConverter::FourDToThreeDImage`. The source sets
`nVolumes = size4D[3]`, `size3D[2] = size4D[2]*nVolumes`, and then guards
`(size4D[2]*nVolumes) != size3D[2]` — the very identity it just
established — before copying the geometry of the first three axes and
`memcpy`ing the new 3D raster byte count. -/
def FourDToThreeDImage (img4D : Volume4DType) :
    Except ReshapeError Volume3DUnwrappedType :=
  let nVolumes := img4D.size 3
  let size3_2 := img4D.size 2 * nVolumes
  if img4D.size 2 * nVolumes ≠ size3_2 then
    .error (.notDivisible size3_2 nVolumes (size3_2 % nVolumes))
  else
    .ok
      { size := ![img4D.size 0, img4D.size 1, size3_2]
        direction := fun i j => img4D.direction i.castSucc j.castSucc
        spacing := fun i => img4D.spacing i.castSucc
        origin := fun i => img4D.origin i.castSucc
        buffer := img4D.buffer.take (img4D.size 0 * img4D.size 1 * size3_2) }

/-! External gradient override loading. -/

/-- The slice of converter state touched by `ReadGradientInformation`:
`m_BValues`, `m_DiffusionVectors` and `m_NVolume`. -/
structure ConverterState where
  bValues : List ℚ
  diffusionVectors : List Vec3
  nVolume : ℕ
deriving DecidableEq

/-- The two fatal configuration errors of `ReadGradientInformation`, each
carrying the offending counts in the order the source prints them. -/
inductive GradientReadError where
  | countMismatch (bVecCount bValCount : ℕ)
  | gradientVolumeMismatch (numGradients nVolume : ℕ)
deriving DecidableEq

/-- Embedding of `DWIConverter::ReadGradientInformation` after the two
external sidecar files have been parsed (parsing is an external
collaborator; its failures abort before this logic). The source throws on
`bValCount != bVecCount`, then on `BVals.size() != GetNVolume()`, and only
after both checks assigns `m_DiffusionVectors = BVecs` and
`m_BValues = BVals`; a thrown exception therefore leaves the state
untouched, which the pair-with-optional-error return models. -/
def ReadGradientInformation (s : ConverterState) (bVals : List ℚ)
    (bVecs : List Vec3) : ConverterState × Option GradientReadError :=
  if bVals.length ≠ bVecs.length then
    (s, some (.countMismatch bVecs.length bVals.length))
  else if bVals.length ≠ s.nVolume then
    (s, some (.gradientVolumeMismatch bVals.length s.nVolume))
  else
    ({ s with bValues := bVals, diffusionVectors := bVecs }, none)

/-! The NRRD header serializer. -/

/-- Observable layout outcome of one `ManualWriteNRRDFile` call:
whether the sample buffer was appended inline to the header stream,
which detached data file (if any) the delegated raw writer targeted, and
whether a delegated-writer exception was caught without being re-thrown. -/
structure NrrdWriteResult where
  inlineData : Bool
  dataFile : Option (List Char)
  swallowedWriterError : Bool
deriving DecidableEq

/-- Exception raised by a delegated `itk::ImageFileWriter`. -/
inductive ImageIOError where
  | ioError (name : List Char)
deriving DecidableEq

/-- Embedding of `DWIConverter::ManualWriteNRRDFile`. The source takes
`extensionPos = outputVolumeHeaderName.find(".nhdr")`; the layout is
single-file (inline) exactly when `.nhdr` is absent, and otherwise the
data name is the prefix before `.nhdr` with `.raw` appended. In detached
mode the delegated raw-image write runs inside a `try`/`catch` that
prints the exception and continues — it does not re-throw — so the
function returns normally regardless of `rawWriterThrows` (the
uninterpreted behavior of the delegated writer). -/
def ManualWriteNRRDFile (outputVolumeHeaderName : List Char)
    (rawWriterThrows : Bool) : Except ImageIOError NrrdWriteResult :=
  let extensionPos := strFind outputVolumeHeaderName nhdrExt
  let nrrdSingleFileFormat := extensionPos.isNone
  let outputVolumeDataName :=
    extensionPos.map (fun p => outputVolumeHeaderName.take p ++ rawExt)
  if nrrdSingleFileFormat then
    .ok { inlineData := true, dataFile := none, swallowedWriterError := false }
  else
    .ok { inlineData := false, dataFile := outputVolumeDataName,
          swallowedWriterError := rawWriterThrows }

/-! The FSL sidecar exporter. -/

/-- A completed file write performed by `WriteFSLFormattedFileSet`. -/
inductive FslEvent where
  | wroteVolume (name : List Char)
  | wroteBVal (name : List Char)
  | wroteBVec (name : List Char)
deriving DecidableEq

/-- The fatal failures of `WriteFSLFormattedFileSet`: the frame
precondition, the re-raised delegated-writer exception, the `exit(1)` of
`has_valid_nifti_extension`, and the two sidecar write failures. -/
inductive FslError where
  | frameNotSupported
  | ioError (name : List Char)
  | unrecognizedFormat (name : List Char)
  | failedBValWrite (name : List Char)
  | failedBVecWrite (name : List Char)
deriving DecidableEq

/-- A 3x3 matrix of doubles (`itk::Matrix<double,3,3>`). -/
abbrev Mat3 := Fin 3 → Fin 3 → ℚ

/-- The identity measurement frame set by the converter constructor. -/
def identityMat3 : Mat3 := fun i j => if i = j then 1 else 0

/-- The quantity the source misleadingly names `trace`: the product
`m[0][0]*m[1][1]*m[2][2]` of the diagonal entries. -/
def diagonalProduct (m : Mat3) : ℚ := m 0 0 * m 1 1 * m 2 2

/-- Embedding of `DWIConverter::has_valid_nifti_extension`: return the
position of the first of `.nii.gz`, `.nii` found as a substring, and
`none` for the branch that prints an unrecognized-filename message and
calls `exit(1)`. -/
def has_valid_nifti_extension (outputVolumeHeaderName : List Char) :
    Option ℕ :=
  match strFind outputVolumeHeaderName niiGzExt with
  | some p => some p
  | none => strFind outputVolumeHeaderName niiExt

/-- Embedding of `DWIConverter::WriteFSLFormattedFileSet`. In source
order: the diagonal-product frame check throws before anything is
written; the delegated 4D volume write runs in a `try`/`catch` that
re-throws (`volumeWriterThrows` is the uninterpreted delegated-writer
behavior); only then is `has_valid_nifti_extension` consulted (its
failure is `exit(1)`); the sidecar names default to the header name cut
at the extension position with `.bval`/`.bvec` appended when the caller
passed empty names; finally the b-value and b-vector sidecars are
written, each failure fatal. Errors carry the list of file writes that
completed before the failure. -/
def WriteFSLFormattedFileSet (measurementFrame : Mat3)
    (outputVolumeHeaderName outputBValues outputBVectors : List Char)
    (volumeWriterThrows bValWriteFails bVecWriteFails : Bool) :
    Except (FslError × List FslEvent) (List FslEvent) :=
  if |diagonalProduct measurementFrame - 1| > 1 / 10000 then
    .error (.frameNotSupported, [])
  else if volumeWriterThrows then
    .error (.ioError outputVolumeHeaderName, [])
  else
    match has_valid_nifti_extension outputVolumeHeaderName with
    | none =>
        .error (.unrecognizedFormat outputVolumeHeaderName,
                [.wroteVolume outputVolumeHeaderName])
    | some extensionPos =>
        let outputFSLBValFilename :=
          if outputBValues = [] then
            outputVolumeHeaderName.take extensionPos ++ bvalExt
          else outputBValues
        let outputFSLBVecFilename :=
          if outputBVectors = [] then
            outputVolumeHeaderName.take extensionPos ++ bvecExt
          else outputBVectors
        if bValWriteFails then
          .error (.failedBValWrite outputFSLBValFilename,
                  [.wroteVolume outputVolumeHeaderName])
        else if bVecWriteFails then
          .error (.failedBVecWrite outputFSLBVecFilename,
                  [.wroteVolume outputVolumeHeaderName,
                   .wroteBVal outputFSLBValFilename])
        else
          .ok [.wroteVolume outputVolumeHeaderName,
               .wroteBVal outputFSLBValFilename,
               .wroteBVec outputFSLBVecFilename]

/-- Decidable equality for `Except`, so that concrete serializer outcomes
can be evaluated by `decide`. -/
instance {ε α : Type} [DecidableEq ε] [DecidableEq α] :
    DecidableEq (Except ε α) := fun x y =>
  match x, y with
  | .ok a, .ok b =>
      if h : a = b then .isTrue (congrArg Except.ok h)
      else .isFalse (fun he => h (Except.ok.inj he))
  | .ok _, .error _ => .isFalse (fun he => Except.noConfusion he)
  | .error _, .ok _ => .isFalse (fun he => Except.noConfusion he)
  | .error e, .error f =>
      if h : e = f then .isTrue (congrArg Except.error h)
      else .isFalse (fun he => h (Except.error.inj he))

/-! Formal statements of the specification claims that turn out to be
false on the code, stated the way the specification words them, plus the
spec-side predicate and the concrete inputs used to refute them. -/

/-- Spec-side predicate (following the specification words, not the
source): the destination carries the recognized single-file `.nrrd`
extension. -/
def specRecognizedSingleFileName (name : List Char) : Bool :=
  (strFind name nrrdExt).isSome

/-- Claim C5 as the specification states it: a recognized single-file
extension selects inline encoding, and any other destination name selects
detached encoding with a separate raw data file. -/
def claimC5 : Prop :=
  ∀ (name : List Char) (w : Bool) (r : NrrdWriteResult),
    ManualWriteNRRDFile name w = .ok r →
    (specRecognizedSingleFileName name = true → r.inlineData = true) ∧
    (specRecognizedSingleFileName name = false →
      r.inlineData = false ∧ r.dataFile.isSome = true)

/-- Claim C6 as the specification states it: whenever the measurement
frame is not the identity matrix, `WriteFSLFormattedFileSet` raises the
fatal frame-not-supported error before any file is created. -/
def claimC6 : Prop :=
  ∀ (frame : Mat3), frame ≠ identityMat3 →
    ∀ (name bv bvec : List Char) (w bf vf : Bool),
      WriteFSLFormattedFileSet frame name bv bvec w bf vf =
        .error (.frameNotSupported, [])

/-- Claim C7 as the specification states it: with an unrecognized main
output extension the export fails with the unrecognized-format error
before any file — volume or sidecar — is created (stated on the path
where the frame check passes and the delegated volume writer succeeds). -/
def claimC7 : Prop :=
  ∀ (frame : Mat3) (name bv bvec : List Char) (bf vf : Bool),
    ¬(|diagonalProduct frame - 1| > 1 / 10000) →
    has_valid_nifti_extension name = none →
    WriteFSLFormattedFileSet frame name bv bvec false bf vf =
      .error (.unrecognizedFormat name, [])

/-- Claim C8 as the specification states it: a delegated-writer exception
is re-raised both by `WriteFSLFormattedFileSet` and by the detached-mode
raw write of `ManualWriteNRRDFile` (never swallowed). -/
def claimC8 : Prop :=
  (∀ (frame : Mat3) (name bv bvec : List Char) (bf vf : Bool),
     ¬(|diagonalProduct frame - 1| > 1 / 10000) →
     ∃ evs, WriteFSLFormattedFileSet frame name bv bvec true bf vf =
       .error (.ioError name, evs)) ∧
  (∀ (name : List Char), (strFind name nhdrExt).isSome = true →
     ∀ (r : NrrdWriteResult), ManualWriteNRRDFile name true ≠ .ok r)

/-- Concrete destination name with an extension that is neither `.nrrd`
nor `.nhdr` nor a NIfTI extension. -/
def outFooName : List Char := ['o', 'u', 't', '.', 'f', 'o', 'o']

/-- Concrete destination name with the `.nii` extension. -/
def aNiiName : List Char := ['a', '.', 'n', 'i', 'i']

/-- Concrete destination name with the `.nhdr` extension. -/
def aNhdrName : List Char := ['a', '.', 'n', 'h', 'd', 'r']

/-- A 90 degree rotation about the z axis; its diagonal product is 0. -/
def rot90Mat : Mat3 := ![![0, -1, 0], ![1, 0, 0], ![0, 0, 1]]

/-- A 180 degree rotation about the z axis, `diag(-1,-1,1)`: not the
identity, yet its diagonal product is exactly 1. -/
def flipZMat : Mat3 :=
  fun i j => if i = j then (if i.val = 2 then 1 else -1) else 0

/-- Concrete b-value table from the specification test list:
`[0,1000,1000,1000,1000,1000,1000]`. -/
def sampleBValues : List ℚ := [0, 1000, 1000, 1000, 1000, 1000, 1000]

/-- Seven unit gradient vectors matching `sampleBValues`. -/
def sampleVecs : List Vec3 := List.replicate 7 ⟨1, 0, 0⟩

/-- A 96x96x61 volume whose slice count is not divisible by 5. -/
def sampleVol61 : Volume3DUnwrappedType :=
  { size := ![96, 96, 61], direction := identityMat3,
    spacing := fun _ => 1, origin := fun _ => 0, buffer := [] }

/-- The 96x96x60 volume of the end-to-end reshaping example, with a
zero-filled buffer of matching length. -/
def bigVol : Volume3DUnwrappedType :=
  { size := ![96, 96, 60], direction := identityMat3,
    spacing := fun _ => 1, origin := fun _ => 0,
    buffer := List.replicate (96 * 96 * 60) 0 }

/-! Helper lemmas about the running maximum of `ComputeMaxBvalue`. -/

/-- The fold of `ComputeMaxBvalue` never goes below its accumulator. -/
theorem computeMax_init_le (l : List ℚ) (a : ℚ) :
    a ≤ l.foldl (fun m b => if b > m then b else m) a := by
  induction l generalizing a with
  | nil => simp
  | cons b t ih =>
      refine le_trans ?_ (ih (if b > a then b else a))
      by_cases h : b > a
      · simp [h, le_of_lt h]
      · simp [h]

/-- Every list element is below the fold of `ComputeMaxBvalue`. -/
theorem computeMax_mem_le (l : List ℚ) (a : ℚ) :
    ∀ b ∈ l, b ≤ l.foldl (fun m b => if b > m then b else m) a := by
  induction l generalizing a with
  | nil => simp
  | cons c t ih =>
      intro b hb
      rcases List.mem_cons.mp hb with h | h
      · subst h
        refine le_trans ?_ (computeMax_init_le t (if b > a then b else a))
        by_cases hba : b > a
        · simp [hba]
        · simp [hba, le_of_not_lt hba]
      · exact ih (if c > a then c else a) b h

/-- The fold of `ComputeMaxBvalue` is either the accumulator or a list
element. -/
theorem computeMax_eq_or_mem (l : List ℚ) (a : ℚ) :
    l.foldl (fun m b => if b > m then b else m) a = a ∨
      l.foldl (fun m b => if b > m then b else m) a ∈ l := by
  induction l generalizing a with
  | nil => simp
  | cons c t ih =>
      have hstep : List.foldl (fun m b => if b > m then b else m) a (c :: t) =
          List.foldl (fun m b => if b > m then b else m) (if c > a then c else a) t := rfl
      rcases ih (if c > a then c else a) with h | h
      · rw [hstep, h]
        by_cases hca : c > a
        · right
          rw [if_pos hca]
          exact List.mem_cons_self c t
        · left
          rw [if_neg hca]
      · right
        rw [hstep]
        exact List.mem_cons_of_mem c h

/-- On a nonempty list of nonnegative values, `ComputeMaxBvalue` returns a
member of the list. -/
theorem computeMax_mem (l : List ℚ) (hne : l ≠ [])
    (hnn : ∀ b ∈ l, 0 ≤ b) : ComputeMaxBvalue l ∈ l := by
  rcases computeMax_eq_or_mem l 0 with h | h
  · cases l with
    | nil => exact absurd rfl hne
    | cons c t =>
        have hmem : c ∈ c :: t := List.mem_cons_self c t
        have hle : c ≤ ComputeMaxBvalue (c :: t) :=
          computeMax_mem_le (c :: t) 0 c hmem
        have hc0 : c ≤ 0 := by
          simpa [ComputeMaxBvalue, h] using hle
        have : c = 0 := le_antisymm hc0 (hnn c hmem)
        have hv : ComputeMaxBvalue (c :: t) = c := by
          simpa [ComputeMaxBvalue, this] using h
        rw [hv]
        exact hmem
  · simpa [ComputeMaxBvalue] using h

/-- `ComputeMaxBvalue` is nonnegative (its fold starts at `0.0`). -/
theorem computeMax_nonneg (l : List ℚ) : 0 ≤ ComputeMaxBvalue l :=
  computeMax_init_le l 0

/-- C1: with `maxB` the maximum of the b-values,
`ConvertToSingleBValueScaledDiffusionVectors` replaces every `vector[k]`
by `sqrt(bValues[k]/maxB)` times the original vector (scale factor 0 when
`maxB` is 0, no renormalization) and sets every `bValues[k] = maxB`, so
afterwards every b-value equals the original maximum. -/
theorem ConvertToSingleBValueScaledDiffusionVectors_correct
    (sqrtD : ℚ → ℚ) (bValues : List ℚ) (vecs : List Vec3)
    (hlen : bValues.length = vecs.length)
    (hnn : ∀ b ∈ bValues, 0 ≤ b) (hne : bValues ≠ []) :
    (ComputeMaxBvalue bValues ∈ bValues ∧
      ∀ b ∈ bValues, b ≤ ComputeMaxBvalue bValues) ∧
    ((ConvertToSingleBValueScaledDiffusionVectors sqrtD bValues vecs).1.length
        = bValues.length ∧
      (ConvertToSingleBValueScaledDiffusionVectors sqrtD bValues vecs).2.length
        = vecs.length) ∧
    (∀ (k : ℕ)
       (hk : k <
         (ConvertToSingleBValueScaledDiffusionVectors sqrtD bValues vecs).1.length),
       (ConvertToSingleBValueScaledDiffusionVectors sqrtD bValues vecs).1[k] =
         ComputeMaxBvalue bValues) ∧
    (∀ (k : ℕ) (hkb : k < bValues.length) (hkv : k < vecs.length)
       (hk2 : k <
         (ConvertToSingleBValueScaledDiffusionVectors sqrtD bValues vecs).2.length),
       (ConvertToSingleBValueScaledDiffusionVectors sqrtD bValues vecs).2[k] =
         smul
           (if ComputeMaxBvalue bValues > 0
            then sqrtD (bValues[k] / ComputeMaxBvalue bValues) else 0)
           vecs[k]) := by
  refine ⟨⟨computeMax_mem bValues hne hnn,
           fun b hb => computeMax_mem_le bValues 0 b hb⟩, ⟨?_, ?_⟩, ?_, ?_⟩
  · simp [ConvertToSingleBValueScaledDiffusionVectors]
  · simp [ConvertToSingleBValueScaledDiffusionVectors, hlen]
  · intro k hk
    simp [ConvertToSingleBValueScaledDiffusionVectors]
  · intro k hkb hkv hk2
    simp [ConvertToSingleBValueScaledDiffusionVectors, List.getElem_zipWith]

/-- Witness for C1 at the specification test table: seven b-values
`[0,1000,...,1000]` and seven unit vectors; entry 0 of the returned
b-values equals the original maximum. -/
theorem ConvertToSingleBValueScaledDiffusionVectors_correct_witness :
    sampleBValues.length = sampleVecs.length ∧
    (∀ b ∈ sampleBValues, 0 ≤ b) ∧ sampleBValues ≠ [] ∧
    List.get
        (ConvertToSingleBValueScaledDiffusionVectors id sampleBValues
          sampleVecs).1 ⟨0, by decide⟩ =
      ComputeMaxBvalue sampleBValues := by
  refine ⟨by decide, by decide, by decide, ?_⟩
  have h := ConvertToSingleBValueScaledDiffusionVectors_correct id
    sampleBValues sampleVecs (by decide) (by decide) (by decide)
  have h0 := h.2.2.1 0 (by decide)
  simpa [List.get_eq_getElem] using h0

/-- C4: `ConvertToMutipleBValuesUnitScaledBVectors` computes per index the
magnitude `m` of the vector, snaps `m` to exactly 1 when `|m^2 - 1| < 0.01`,
divides the vector by its (unsnapped) magnitude, and sets
`bValues[k] = round(maxB * m^2)` with the snapped `m`. -/
theorem ConvertToMutipleBValuesUnitScaledBVectors_correct
    (sqrtD : ℚ → ℚ) (bValues : List ℚ) (vecs : List Vec3)
    (hlen : bValues.length = vecs.length) :
    ((ConvertToMutipleBValuesUnitScaledBVectors sqrtD bValues vecs).1.length
        = bValues.length ∧
      (ConvertToMutipleBValuesUnitScaledBVectors sqrtD bValues vecs).2.length
        = vecs.length) ∧
    ∀ (k : ℕ) (hkv : k < vecs.length)
      (hk1 : k <
        (ConvertToMutipleBValuesUnitScaledBVectors sqrtD bValues vecs).1.length)
      (hk2 : k <
        (ConvertToMutipleBValuesUnitScaledBVectors sqrtD bValues vecs).2.length),
      ((ConvertToMutipleBValuesUnitScaledBVectors sqrtD bValues vecs).2[k] =
         smul (sqrtD (sumSq vecs[k]))⁻¹ vecs[k]) ∧
      ((ConvertToMutipleBValuesUnitScaledBVectors sqrtD bValues vecs).1[k] =
         ((itkRound (ComputeMaxBvalue bValues *
             (if |sqrtD (sumSq vecs[k]) * sqrtD (sumSq vecs[k]) - 1| < 1 / 100
              then 1 else sqrtD (sumSq vecs[k])) *
             (if |sqrtD (sumSq vecs[k]) * sqrtD (sumSq vecs[k]) - 1| < 1 / 100
              then 1 else sqrtD (sumSq vecs[k]))) : ℤ) : ℚ)) := by
  refine ⟨⟨?_, ?_⟩, ?_⟩
  · simp [ConvertToMutipleBValuesUnitScaledBVectors, hlen]
  · simp [ConvertToMutipleBValuesUnitScaledBVectors]
  · intro k hkv hk1 hk2
    constructor
    · simp [ConvertToMutipleBValuesUnitScaledBVectors]
    · simp [ConvertToMutipleBValuesUnitScaledBVectors]

/-- Witness for C4 at one unit vector with b-value 1000: the magnitude
snaps to 1 and the new b-value is `round(1000*1*1) = 1000`. -/
theorem ConvertToMutipleBValuesUnitScaledBVectors_correct_witness :
    [(1000 : ℚ)].length = [(⟨1, 0, 0⟩ : Vec3)].length ∧
    List.get
        (ConvertToMutipleBValuesUnitScaledBVectors id [(1000 : ℚ)]
          [(⟨1, 0, 0⟩ : Vec3)]).1 ⟨0, by decide⟩ = 1000 := by
  refine ⟨by decide, ?_⟩
  have h := ConvertToMutipleBValuesUnitScaledBVectors_correct id
    [(1000 : ℚ)] [(⟨1, 0, 0⟩ : Vec3)] (by decide)
  have h0 := (h.2 0 (by decide) (by decide) (by decide)).2
  rw [List.get_eq_getElem, h0]
  norm_num [sumSq, ComputeMaxBvalue, itkRound]

/-- C9: `ReadGradientInformation` with mismatched list counts, or with a
common count different from the number of volumes, fails with the fatal
configuration error carrying the offending counts and leaves the
converter state unchanged; on success it replaces both sequences
together. -/
theorem ReadGradientInformation_correct (s : ConverterState)
    (bVals : List ℚ) (bVecs : List Vec3) :
    (bVals.length ≠ bVecs.length →
       ReadGradientInformation s bVals bVecs =
         (s, some (.countMismatch bVecs.length bVals.length))) ∧
    (bVals.length = bVecs.length → bVals.length ≠ s.nVolume →
       ReadGradientInformation s bVals bVecs =
         (s, some (.gradientVolumeMismatch bVals.length s.nVolume))) ∧
    (bVals.length = bVecs.length → bVals.length = s.nVolume →
       ReadGradientInformation s bVals bVecs =
         ({ s with bValues := bVals, diffusionVectors := bVecs }, none)) := by
  refine ⟨?_, ?_, ?_⟩
  · intro h
    simp [ReadGradientInformation, h]
  · intro h1 h2
    have h2b : bVecs.length ≠ s.nVolume := h1 ▸ h2
    simp [ReadGradientInformation, h1, h2, h2b]
  · intro h1 h2
    have h2b : bVecs.length = s.nVolume := h1 ▸ h2
    simp [ReadGradientInformation, h1, h2, h2b]

/-- Witness for C9 at the specification example: six b-values against
seven vectors fail with the count-mismatch error and leave the state as
it was. -/
theorem ReadGradientInformation_correct_witness :
    (List.replicate 6 (0 : ℚ)).length ≠
        (List.replicate 7 (⟨0, 0, 0⟩ : Vec3)).length ∧
    ReadGradientInformation ⟨[], [], 6⟩ (List.replicate 6 (0 : ℚ))
        (List.replicate 7 (⟨0, 0, 0⟩ : Vec3)) =
      (⟨[], [], 6⟩, some (.countMismatch 7 6)) := by
  refine ⟨by decide, ?_⟩
  have h := (ReadGradientInformation_correct ⟨[], [], 6⟩
    (List.replicate 6 (0 : ℚ)) (List.replicate 7 (⟨0, 0, 0⟩ : Vec3))).1
    (by decide)
  simpa using h

/-- C10: `FourDToThreeDImage` never takes its non-divisibility error
branch; flattening succeeds for every 4D volume because the guard
compares `size4D[2] * nVolumes` against the slice count it itself just
computed as that very product. -/
theorem FourDToThreeDImage_total (img4D : Volume4DType) :
    ∃ img3D, FourDToThreeDImage img4D = .ok img3D := by
  simp only [FourDToThreeDImage]
  rw [if_neg (by simp)]
  exact ⟨_, rfl⟩

/-- C2: for a 3D unwrapped volume whose slice count divides evenly,
wrapping to 4D and flattening back yields the original sample buffer, the
intermediate 4D size being `(cols, rows, slices/numVolumes, numVolumes)`. -/
theorem reshape_roundTrip (nVolumes : ℕ) (img : Volume3DUnwrappedType)
    (hn : 0 < nVolumes) (hdvd : nVolumes ∣ img.size 2)
    (hbuf : img.buffer.length = img.size 0 * img.size 1 * img.size 2) :
    ∃ img4D img3D,
      ThreeDToFourDImage nVolumes img = .ok img4D ∧
      img4D.size = ![img.size 0, img.size 1, img.size 2 / nVolumes, nVolumes] ∧
      FourDToThreeDImage img4D = .ok img3D ∧
      img3D.buffer = img.buffer := by
  have hmul : img.size 2 / nVolumes * nVolumes = img.size 2 :=
    Nat.div_mul_cancel hdvd
  have htake : List.take
      (img.size 0 * img.size 1 * (img.size 2 / nVolumes) * nVolumes)
      img.buffer = img.buffer := by
    rw [mul_assoc (img.size 0 * img.size 1), hmul, ← hbuf]
    exact List.take_length img.buffer
  have h4 : ∃ v4, ThreeDToFourDImage nVolumes img = .ok v4 ∧
      v4.size = ![img.size 0, img.size 1, img.size 2 / nVolumes, nVolumes] ∧
      v4.buffer = img.buffer := by
    simp only [ThreeDToFourDImage]
    rw [if_neg (by simp [hmul])]
    exact ⟨_, rfl, rfl, htake⟩
  obtain ⟨v4, h4eq, h4size, h4buf⟩ := h4
  have h3 : ∃ v3, FourDToThreeDImage v4 = .ok v3 ∧
      v3.buffer =
        List.take (v4.size 0 * v4.size 1 * (v4.size 2 * v4.size 3))
          v4.buffer := by
    simp only [FourDToThreeDImage]
    rw [if_neg (by simp)]
    exact ⟨_, rfl, rfl⟩
  obtain ⟨v3, h3eq, h3buf⟩ := h3
  refine ⟨v4, v3, h4eq, h4size, h3eq, ?_⟩
  rw [h3buf, h4buf, h4size]
  show List.take
      (img.size 0 * img.size 1 * (img.size 2 / nVolumes * nVolumes))
      img.buffer = img.buffer
  rw [hmul, ← hbuf]
  exact List.take_length img.buffer

/-- Witness for C2 at the end-to-end example: a 96x96x60 volume with
`numVolumes = 5` wraps to size `(96, 96, 12, 5)` and re-flattens to the
original buffer. -/
theorem reshape_roundTrip_witness :
    0 < 5 ∧ 5 ∣ bigVol.size 2 ∧
    bigVol.buffer.length = bigVol.size 0 * bigVol.size 1 * bigVol.size 2 ∧
    ∃ img4D img3D,
      ThreeDToFourDImage 5 bigVol = .ok img4D ∧
      img4D.size = ![bigVol.size 0, bigVol.size 1, bigVol.size 2 / 5, 5] ∧
      FourDToThreeDImage img4D = .ok img3D ∧
      img3D.buffer = bigVol.buffer :=
  ⟨by decide, by decide,
   by
     show (List.replicate (96 * 96 * 60) (0 : ℤ)).length = 96 * 96 * 60
     rw [List.length_replicate],
   reshape_roundTrip 5 bigVol (by decide) (by decide)
     (by
       show (List.replicate (96 * 96 * 60) (0 : ℤ)).length = 96 * 96 * 60
       rw [List.length_replicate])⟩

/-- C3: `ThreeDToFourDImage` raises the fatal error reporting the
non-divisible remainder when the slice count is not evenly divisible by
`numVolumes`; otherwise it produces a 4D volume of size
`(cols, rows, totalSlices/numVolumes, numVolumes)` whose first three axes
copy the 3D direction, spacing and origin, whose 4th axis carries
identity direction, unit spacing and zero origin, and whose buffer is the
3D buffer copied verbatim. -/
theorem ThreeDToFourDImage_correct (nVolumes : ℕ)
    (img : Volume3DUnwrappedType) (hn : 0 < nVolumes) :
    (¬ nVolumes ∣ img.size 2 →
       ThreeDToFourDImage nVolumes img =
         .error (.notDivisible (img.size 2) nVolumes
           (img.size 2 % nVolumes))) ∧
    (nVolumes ∣ img.size 2 →
       ∃ img4D, ThreeDToFourDImage nVolumes img = .ok img4D ∧
         img4D.size =
           ![img.size 0, img.size 1, img.size 2 / nVolumes, nVolumes] ∧
         (∀ i j : Fin 3,
            img4D.direction i.castSucc j.castSucc = img.direction i j) ∧
         (∀ i : Fin 3, img4D.spacing i.castSucc = img.spacing i) ∧
         (∀ i : Fin 3, img4D.origin i.castSucc = img.origin i) ∧
         img4D.direction 3 3 = 1 ∧
         (∀ i : Fin 3, img4D.direction i.castSucc 3 = 0 ∧
            img4D.direction 3 i.castSucc = 0) ∧
         img4D.spacing 3 = 1 ∧ img4D.origin 3 = 0 ∧
         (img.buffer.length = img.size 0 * img.size 1 * img.size 2 →
            img4D.buffer = img.buffer)) := by
  constructor
  · intro hndvd
    have hne : img.size 2 / nVolumes * nVolumes ≠ img.size 2 := by
      intro he
      exact hndvd ⟨img.size 2 / nVolumes,
        he.symm.trans (mul_comm (img.size 2 / nVolumes) nVolumes)⟩
    simp only [ThreeDToFourDImage]
    rw [if_pos hne]
  · intro hdvd
    have hmul : img.size 2 / nVolumes * nVolumes = img.size 2 :=
      Nat.div_mul_cancel hdvd
    simp only [ThreeDToFourDImage]
    rw [if_neg (by simp [hmul])]
    refine ⟨_, rfl, rfl, ?_, ?_, ?_, ?_, ?_, ?_, ?_, ?_⟩
    · intro i j
      show (if h : (i.castSucc : Fin 4).val < 3 ∧ (j.castSucc : Fin 4).val < 3
            then img.direction ⟨(i.castSucc : Fin 4).val, h.1⟩
              ⟨(j.castSucc : Fin 4).val, h.2⟩
            else if (i.castSucc : Fin 4) = j.castSucc then 1 else 0) =
          img.direction i j
      rw [dif_pos ⟨i.isLt, j.isLt⟩]
      rfl
    · intro i
      show (if h : (i.castSucc : Fin 4).val < 3
            then img.spacing ⟨(i.castSucc : Fin 4).val, h⟩ else 1) =
          img.spacing i
      rw [dif_pos (show ((i.castSucc : Fin 4) : ℕ) < 3 from i.isLt)]
      rfl
    · intro i
      show (if h : (i.castSucc : Fin 4).val < 3
            then img.origin ⟨(i.castSucc : Fin 4).val, h⟩ else 0) =
          img.origin i
      rw [dif_pos (show ((i.castSucc : Fin 4) : ℕ) < 3 from i.isLt)]
      rfl
    · show (if h : (3 : Fin 4).val < 3 ∧ (3 : Fin 4).val < 3
            then img.direction ⟨(3 : Fin 4).val, h.1⟩ ⟨(3 : Fin 4).val, h.2⟩
            else if (3 : Fin 4) = 3 then 1 else 0) = 1
      rw [dif_neg (by decide)]
      simp
    · intro i
      constructor
      · show (if h : (i.castSucc : Fin 4).val < 3 ∧ (3 : Fin 4).val < 3
              then img.direction ⟨(i.castSucc : Fin 4).val, h.1⟩
                ⟨(3 : Fin 4).val, h.2⟩
              else if (i.castSucc : Fin 4) = 3 then 1 else 0) = 0
        rw [dif_neg (by intro h; exact absurd h.2 (by decide))]
        rw [if_neg (by
          intro he
          have hv := congrArg Fin.val he
          have hlt : (i.castSucc : Fin 4).val < 3 := i.isLt
          rw [hv] at hlt
          exact absurd hlt (by decide))]
      · show (if h : (3 : Fin 4).val < 3 ∧ (i.castSucc : Fin 4).val < 3
              then img.direction ⟨(3 : Fin 4).val, h.1⟩
                ⟨(i.castSucc : Fin 4).val, h.2⟩
              else if (3 : Fin 4) = i.castSucc then 1 else 0) = 0
        rw [dif_neg (by
          intro he
          exact absurd he.1 (by decide))]
        rw [if_neg (by
          intro he
          have hv := congrArg Fin.val he
          have hlt : (i.castSucc : Fin 4).val < 3 := i.isLt
          rw [← hv] at hlt
          exact absurd hlt (by decide))]
    · show (if h : (3 : Fin 4).val < 3
            then img.spacing ⟨(3 : Fin 4).val, h⟩ else 1) = 1
      rw [dif_neg (by decide)]
    · show (if h : (3 : Fin 4).val < 3
            then img.origin ⟨(3 : Fin 4).val, h⟩ else 0) = 0
      rw [dif_neg (by decide)]
    · intro hbuf
      show List.take
          (img.size 0 * img.size 1 * (img.size 2 / nVolumes) * nVolumes)
          img.buffer = img.buffer
      rw [mul_assoc (img.size 0 * img.size 1), hmul, ← hbuf]
      exact List.take_length img.buffer

/-- Witness for C3 at a 96x96x61 volume and 5 volumes: 61 is not
divisible by 5 and the fatal error carries the left-over slice count. -/
theorem ThreeDToFourDImage_correct_witness :
    0 < 5 ∧ ¬ 5 ∣ sampleVol61.size 2 ∧
    ThreeDToFourDImage 5 sampleVol61 =
      .error (.notDivisible (sampleVol61.size 2) 5
        (sampleVol61.size 2 % 5)) :=
  ⟨by decide, by decide,
   (ThreeDToFourDImage_correct 5 sampleVol61 (by decide)).1 (by decide)⟩

/-- C5 counterexample: for the destination `out.foo` — which does not
carry the recognized single-file `.nrrd` extension — the claim predicts
detached encoding, but `ManualWriteNRRDFile` only goes detached on
`.nhdr` and writes `out.foo` inline. -/
theorem claimC5_false : ¬ claimC5 := by
  intro h
  have h2 := (h outFooName false
      { inlineData := true, dataFile := none, swallowedWriterError := false }
      (by decide)).2 (by decide)
  exact absurd h2.1 (by decide)

/-- C5 (amended): `ManualWriteNRRDFile` uses detached encoding exactly
when the destination name contains `.nhdr` (the raw data sibling being
the prefix before `.nhdr` with `.raw` appended), and inline encoding for
every other destination name. -/
theorem ManualWriteNRRDFile_layout (name : List Char) (w : Bool) :
    ∃ r, ManualWriteNRRDFile name w = .ok r ∧
      r.inlineData = (strFind name nhdrExt).isNone ∧
      r.dataFile =
        (strFind name nhdrExt).map (fun p => name.take p ++ rawExt) := by
  cases h : strFind name nhdrExt with
  | none =>
      exact ⟨{ inlineData := true, dataFile := none,
               swallowedWriterError := false },
        by simp [ManualWriteNRRDFile, h], by simp [h], by simp [h]⟩
  | some p =>
      exact ⟨{ inlineData := false,
               dataFile := some (name.take p ++ rawExt),
               swallowedWriterError := w },
        by simp [ManualWriteNRRDFile, h], by simp [h], by simp [h]⟩

/-- C6 counterexample: the 180 degree rotation `diag(-1,-1,1)` is not the
identity frame, yet its diagonal product is exactly 1, so
`WriteFSLFormattedFileSet` passes the check and writes all three files
instead of raising the frame-not-supported error. -/
theorem claimC6_false : ¬ claimC6 := by
  intro h
  have hcond : ¬(|diagonalProduct flipZMat - 1| > 1 / 10000) := by
    norm_num [diagonalProduct, flipZMat]
  have hok : WriteFSLFormattedFileSet flipZMat aNiiName [] [] false false
      false =
      .ok [.wroteVolume aNiiName,
           .wroteBVal (aNiiName.take 1 ++ bvalExt),
           .wroteBVec (aNiiName.take 1 ++ bvecExt)] := by
    unfold WriteFSLFormattedFileSet
    rw [if_neg hcond]
    rfl
  have h2 := h flipZMat
    (by
      intro he
      have h00 := congrFun (congrFun he 0) 0
      norm_num [flipZMat, identityMat3] at h00)
    aNiiName [] [] false false false
  rw [hok] at h2
  simp at h2

/-- C6 (amended): whenever the product of the measurement frame diagonal
entries differs from 1 by more than `1e-4` — in particular for a 90
degree rotation — `WriteFSLFormattedFileSet` raises the fatal
frame-not-supported error with no file written; the check is the diagonal
product, not full matrix equality, so some non-identity frames pass it. -/
theorem WriteFSLFormattedFileSet_frame_check (frame : Mat3)
    (name bv bvec : List Char) (w bf vf : Bool)
    (h : |diagonalProduct frame - 1| > 1 / 10000) :
    WriteFSLFormattedFileSet frame name bv bvec w bf vf =
      .error (.frameNotSupported, []) := by
  unfold WriteFSLFormattedFileSet
  rw [if_pos h]

/-- Witness for the amended C6: a 90 degree rotation has diagonal product
0 and is rejected before any write. -/
theorem WriteFSLFormattedFileSet_frame_check_witness :
    |diagonalProduct rot90Mat - 1| > 1 / 10000 ∧
    WriteFSLFormattedFileSet rot90Mat aNiiName [] [] false false false =
      .error (.frameNotSupported, []) :=
  ⟨by norm_num [diagonalProduct, rot90Mat],
   WriteFSLFormattedFileSet_frame_check rot90Mat aNiiName [] []
    false false false (by norm_num [diagonalProduct, rot90Mat])⟩

/-- C7 counterexample: with the identity frame, a successful delegated
volume write, and the unrecognized destination `out.foo`, the export does
fail with the unrecognized-format error — but only after the 4D volume
file has already been written, not before any writing occurs. -/
theorem claimC7_false : ¬ claimC7 := by
  intro h
  have hframe : ¬(|diagonalProduct identityMat3 - 1| > 1 / 10000) := by
    norm_num [diagonalProduct, identityMat3]
  have hext : has_valid_nifti_extension outFooName = none := by decide
  have hval : WriteFSLFormattedFileSet identityMat3 outFooName [] [] false
      false false =
      .error (.unrecognizedFormat outFooName,
              [.wroteVolume outFooName]) := by
    unfold WriteFSLFormattedFileSet
    rw [if_neg hframe, hext]
    rfl
  have h2 := h identityMat3 outFooName [] [] false false hframe hext
  rw [hval] at h2
  simp at h2

/-- C7 (amended): when the frame check passes, the delegated volume
writer succeeds, and the main output name carries neither `.nii` nor
`.nii.gz`, `WriteFSLFormattedFileSet` fails fatally with the
unrecognized-format error after the volume write and before either
sidecar is written. -/
theorem WriteFSLFormattedFileSet_unrecognized (frame : Mat3)
    (name bv bvec : List Char) (bf vf : Bool)
    (hframe : ¬(|diagonalProduct frame - 1| > 1 / 10000))
    (hext : has_valid_nifti_extension name = none) :
    WriteFSLFormattedFileSet frame name bv bvec false bf vf =
      .error (.unrecognizedFormat name, [.wroteVolume name]) := by
  unfold WriteFSLFormattedFileSet
  rw [if_neg hframe, hext]
  rfl

/-- Witness for the amended C7 at the identity frame and `out.foo`. -/
theorem WriteFSLFormattedFileSet_unrecognized_witness :
    ¬(|diagonalProduct identityMat3 - 1| > 1 / 10000) ∧
    has_valid_nifti_extension outFooName = none ∧
    WriteFSLFormattedFileSet identityMat3 outFooName [] [] false false
        false =
      .error (.unrecognizedFormat outFooName, [.wroteVolume outFooName]) :=
  ⟨by norm_num [diagonalProduct, identityMat3], by decide,
   WriteFSLFormattedFileSet_unrecognized identityMat3
    outFooName [] [] false false
    (by norm_num [diagonalProduct, identityMat3]) (by decide)⟩

/-- C8 counterexample: in detached mode `ManualWriteNRRDFile` catches the
raw-writer exception, prints it, and returns normally — the exception is
swallowed, contradicting the claim that it is always re-raised. -/
theorem claimC8_false : ¬ claimC8 := by
  intro h
  exact h.2 aNhdrName (by decide)
    { inlineData := false,
      dataFile := some (List.take 1 aNhdrName ++ rawExt),
      swallowedWriterError := true }
    (by decide)

/-- C8 (amended): a delegated-writer exception during the 4D volume write
of `WriteFSLFormattedFileSet` is re-raised to the caller (nothing having
been written), while the detached raw-data write of
`ManualWriteNRRDFile` reports the exception but swallows it and returns
normally. -/
theorem delegatedWriterException_behavior (frame : Mat3)
    (name bv bvec nrrdName : List Char) (bf vf : Bool)
    (hframe : ¬(|diagonalProduct frame - 1| > 1 / 10000)) :
    WriteFSLFormattedFileSet frame name bv bvec true bf vf =
      .error (.ioError name, []) ∧
    ∃ r, ManualWriteNRRDFile nrrdName true = .ok r ∧
      ((strFind nrrdName nhdrExt).isSome = true →
        r.swallowedWriterError = true) := by
  constructor
  · unfold WriteFSLFormattedFileSet
    rw [if_neg hframe]
    rfl
  · cases h : strFind nrrdName nhdrExt with
    | none =>
        exact ⟨{ inlineData := true, dataFile := none,
                 swallowedWriterError := false },
          by simp [ManualWriteNRRDFile, h], by simp [h]⟩
    | some p =>
        exact ⟨{ inlineData := false,
                 dataFile := some (nrrdName.take p ++ rawExt),
                 swallowedWriterError := true },
          by simp [ManualWriteNRRDFile, h], by simp [h]⟩

/-- Witness for the amended C8 at the identity frame, destination `a.nii`
for the FSL path and `a.nhdr` for the detached NRRD path. -/
theorem delegatedWriterException_behavior_witness :
    ¬(|diagonalProduct identityMat3 - 1| > 1 / 10000) ∧
    (WriteFSLFormattedFileSet identityMat3 aNiiName [] [] true false
        false = .error (.ioError aNiiName, []) ∧
      ∃ r, ManualWriteNRRDFile aNhdrName true = .ok r ∧
        ((strFind aNhdrName nhdrExt).isSome = true →
          r.swallowedWriterError = true)) :=
  ⟨by norm_num [diagonalProduct, identityMat3],
   delegatedWriterException_behavior identityMat3 aNiiName [] []
    aNhdrName false false
    (by norm_num [diagonalProduct, identityMat3])⟩

end DWIConverter
